import Mathlib

/-!
# Verification of `deep_qa/layers/entailment_models.py`

A shallow embedding of the entailment layers of the `deep_qa` repository
(file `src/main/python/deep_qa/layers/entailment_models.py`) and proofs of
the specification's claims about them.

Modelling conventions:
* A Keras tensor of shape `(batch, d)` is a `List (List ℝ)`; a tensor of
  shape `(batch, options, d)` is a `List (List (List ℝ))`.  Keras tensors
  are rectangular; rectangularity appears as explicit length hypotheses.
* The parameter-free combiners are polymorphic over a commutative ring so
  that concrete instances can be evaluated over `ℤ` by `decide`.
* A built `Dense` layer is its weight matrix and bias vector; `Dense` with
  an elementwise activation `act` computes `act (W·x + b)` componentwise,
  and `Dense(activation='softmax')` applies `softmax` to the affine image.
* The activation function chosen by the `hidden_layer_activation`
  configuration string is an arbitrary function `act : ℝ → ℝ`, since the
  source resolves the name through Keras.
-/

/-- Dot product of two vectors, truncating to the shorter length. -/
def dotProduct (v w : List ℝ) : ℝ :=
  (List.zipWith (fun a b => a * b) v w).sum

/-- Embedding of `K.softmax` on one row: `softmax v = (exp vᵢ / Σⱼ exp vⱼ)ᵢ`. -/
noncomputable def softmax (v : List ℝ) : List ℝ :=
  v.map (fun y => Real.exp y / (v.map Real.exp).sum)

/-- The `sigmoid` activation function. -/
noncomputable def sigmoid (z : ℝ) : ℝ :=
  1 / (1 + Real.exp (-z))

/-- A built Keras `Dense` layer: weight matrix (one row per output unit)
and bias vector. -/
structure DenseLayer where
  weights : List (List ℝ)
  bias : List ℝ

/-- The affine map `W·x + b` of a `Dense` layer. -/
def DenseLayer.affine (d : DenseLayer) (x : List ℝ) : List ℝ :=
  List.zipWith (fun w b => dotProduct w x + b) d.weights d.bias

/-- A `Dense` layer with elementwise activation `act`. -/
def DenseLayer.apply (act : ℝ → ℝ) (d : DenseLayer) (x : List ℝ) : List ℝ :=
  (d.affine x).map act

/-- A `Dense` layer applied to a whole `(batch, d)` tensor. -/
def DenseLayer.applyBatch (act : ℝ → ℝ) (d : DenseLayer)
    (batch : List (List ℝ)) : List (List ℝ) :=
  batch.map (d.apply act)

/-- A `Dense(activation='softmax')` layer applied to a `(batch, d)`
tensor. -/
noncomputable def DenseLayer.applySoftmaxBatch (d : DenseLayer)
    (batch : List (List ℝ)) : List (List ℝ) :=
  batch.map (fun x => softmax (d.affine x))

/-- Keras `TimeDistributed(layer)` on a `(batch, options, d)` tensor:
apply `layer` to every option slice of every batch row. -/
def timeDistributed (f : List ℝ → List ℝ) (t : List (List (List ℝ))) :
    List (List (List ℝ)) :=
  t.map (fun opts => opts.map f)

/-! ## Combiners (source lines 184–241)

`split_combiner_inputs` and the two `Layer` subclasses
`MemoryOnlyCombiner` and `HeuristicMatchingCombiner`.  These are
parameter-free row transformations, so they are modelled on a single row,
polymorphic over a commutative ring. -/

/-- Embedding of `split_combiner_inputs(x, encoding_dim)` (source lines 184–188):
`(x[:, :D], x[:, D:2D], x[:, 2D:])` via Python slicing semantics. -/
def split_combiner_inputs {α : Type} (x : List α) (encoding_dim : ℕ) :
    List α × List α × List α :=
  (x.take encoding_dim,
   (x.drop encoding_dim).take encoding_dim,
   x.drop (2 * encoding_dim))

/-- Configuration of `MemoryOnlyCombiner(encoding_dim)` (source lines 191–210). -/
structure MemoryOnlyCombiner where
  encoding_dim : ℕ

/-- Embedding of `MemoryOnlyCombiner.call`: return the current-memory slice. -/
def MemoryOnlyCombiner.call {α : Type} (c : MemoryOnlyCombiner)
    (x : List α) : List α :=
  (split_combiner_inputs x c.encoding_dim).2.1

/-- Embedding of `MemoryOnlyCombiner.get_output_shape_for`: `(input_shape[0],
encoding_dim)`; the batch axis is `None` in Keras, hence `Option ℕ`. -/
def MemoryOnlyCombiner.get_output_shape_for (c : MemoryOnlyCombiner)
    (input_shape : Option ℕ × ℕ) : Option ℕ × ℕ :=
  (input_shape.1, c.encoding_dim)

/-- Configuration of `HeuristicMatchingCombiner(encoding_dim)` (source lines 213–241). -/
structure HeuristicMatchingCombiner where
  encoding_dim : ℕ

/-- Embedding of `HeuristicMatchingCombiner.call`: concatenate sentence encoding,
current memory, their elementwise product and their difference. -/
def HeuristicMatchingCombiner.call {α : Type} [CommRing α]
    (c : HeuristicMatchingCombiner) (x : List α) : List α :=
  let sentence_encoding := (split_combiner_inputs x c.encoding_dim).1
  let current_memory := (split_combiner_inputs x c.encoding_dim).2.1
  let sentence_memory_product :=
    List.zipWith (fun a b => a * b) sentence_encoding current_memory
  let sentence_memory_diff :=
    List.zipWith (fun a b => a - b) sentence_encoding current_memory
  sentence_encoding ++ current_memory ++ sentence_memory_product ++
    sentence_memory_diff

/-- Embedding of `HeuristicMatchingCombiner.get_output_shape_for`:
`(input_shape[0], encoding_dim * 4)`. -/
def HeuristicMatchingCombiner.get_output_shape_for
    (c : HeuristicMatchingCombiner) (input_shape : Option ℕ × ℕ) :
    Option ℕ × ℕ :=
  (input_shape.1, c.encoding_dim * 4)

/-! ## Keras backend primitives used by the classifiers -/

/-- Embedding of `K.ones_like` on a `(batch, options, d)` tensor. -/
def ones_like (t : List (List (List ℝ))) : List (List (List ℝ)) :=
  t.map (fun opts => opts.map (fun a => a.map (fun _ => (1 : ℝ))))

/-- Embedding of `K.permute_dimensions(t, [1, 0, 2])` on a rectangular 3-tensor:
swap the first two axes, `out[j][i] = t[i][j]`. -/
def permute_dimensions_102 (t : List (List (List ℝ))) :
    List (List (List ℝ)) :=
  (List.range (t.headD []).length).map
    (fun j => t.map (fun slice => slice.getD j []))

/-- Broadcast multiplication `t * m` of a `(options, batch, d)` tensor
with a `(batch, d)` tensor: the matrix is multiplied elementwise into
every slice along the first axis. -/
def broadcast_mul (t : List (List (List ℝ))) (m : List (List ℝ)) :
    List (List (List ℝ)) :=
  t.map (fun slice =>
    List.zipWith (fun row prow => List.zipWith (fun a b => a * b) row prow)
      slice m)

/-- Elementwise product of two same-shape `(batch, options, d)` tensors. -/
def elementwise_mul3 (t u : List (List (List ℝ))) :
    List (List (List ℝ)) :=
  List.zipWith
    (fun opts opts' =>
      List.zipWith (fun a b => List.zipWith (fun p q => p * q) a b)
        opts opts')
    t u

/-- Embedding of `K.sum(·, axis=2)` on a `(batch, options, d)` tensor. -/
def sum_axis2 (t : List (List (List ℝ))) : List (List ℝ) :=
  t.map (fun opts => opts.map List.sum)

/-- Embedding of `K.squeeze(·, axis=2)` on a `(batch, options, 1)` tensor. -/
def squeeze_axis2 (t : List (List (List ℝ))) : List (List ℝ) :=
  t.map (fun opts => opts.map (fun v => v.headD 0))

/-! ## Construction-time configuration (source lines 25–32, 67–78,
141–151)

`TrueFalseEntailmentModel.__init__` and
`QuestionAnswerEntailmentModel.__init__` read required keys out of
`**kwargs`; a missing key raises `KeyError` before any layer is built.
`MultipleChoiceEntailmentModel.__init__` declares the same three
parameters positionally, and a missing argument raises `TypeError` at the
call.  Either way absence is an immediate construction failure, modelled
by `Option`-valued lookups threaded through `Option.bind`. -/

/-- The keyword arguments a caller may supply to a model constructor. -/
structure Kwargs where
  num_hidden_layers : Option ℕ
  hidden_layer_width : Option ℕ
  hidden_layer_activation : Option String
  answer_dim : Option ℕ

/-- The declared configuration of a `Dense` layer as built by
`_init_layers` (`output_dim=` and `activation=` arguments). -/
structure DenseSpec where
  output_dim : ℕ
  activation : String

/-- Configuration of `TrueFalseEntailmentModel` as stored by `__init__`. -/
structure TrueFalseEntailmentModel where
  num_hidden_layers : ℕ
  hidden_layer_width : ℕ
  hidden_layer_activation : String

/-- Embedding of `TrueFalseEntailmentModel.__init__`: reads the three required keys
from `kwargs`; any absent key is an immediate `KeyError`. -/
def TrueFalseEntailmentModel.init (kwargs : Kwargs) :
    Option TrueFalseEntailmentModel :=
  (kwargs.num_hidden_layers).bind (fun n =>
    (kwargs.hidden_layer_width).bind (fun w =>
      (kwargs.hidden_layer_activation).map (fun a =>
        { num_hidden_layers := n
          hidden_layer_width := w
          hidden_layer_activation := a })))

/-- Embedding of `TrueFalseEntailmentModel._init_layers`, hidden layers: one
`Dense(output_dim=hidden_layer_width, activation=...)` per hidden
layer. -/
def TrueFalseEntailmentModel.init_hidden_layers
    (m : TrueFalseEntailmentModel) : List DenseSpec :=
  (List.range m.num_hidden_layers).map
    (fun _ => ⟨m.hidden_layer_width, m.hidden_layer_activation⟩)

/-- Embedding of `TrueFalseEntailmentModel._init_layers`, score layer (source
line 44): `Dense(output_dim=2, activation='softmax')`. -/
def TrueFalseEntailmentModel.init_score_layer
    (_ : TrueFalseEntailmentModel) : DenseSpec :=
  ⟨2, "softmax"⟩

/-- Embedding of `TrueFalseEntailmentModel.classify` (source lines 46–56): thread the
combined input through the hidden layers, then through the 2-way softmax
score layer. -/
noncomputable def TrueFalseEntailmentModel.classify (act : ℝ → ℝ)
    (hidden_layers : List DenseLayer) (score_layer : DenseLayer)
    (combined_input : List (List ℝ)) : List (List ℝ) :=
  score_layer.applySoftmaxBatch
    (hidden_layers.foldl (fun t l => l.applyBatch act t) combined_input)

/-- Configuration of `QuestionAnswerEntailmentModel` as stored by
`__init__`. -/
structure QuestionAnswerEntailmentModel where
  num_hidden_layers : ℕ
  hidden_layer_width : ℕ
  hidden_layer_activation : String
  answer_dim : ℕ

/-- Embedding of `QuestionAnswerEntailmentModel.__init__`: reads the four required
keys from `kwargs`. -/
def QuestionAnswerEntailmentModel.init (kwargs : Kwargs) :
    Option QuestionAnswerEntailmentModel :=
  (kwargs.num_hidden_layers).bind (fun n =>
    (kwargs.hidden_layer_width).bind (fun w =>
      (kwargs.hidden_layer_activation).bind (fun a =>
        (kwargs.answer_dim).map (fun d =>
          { num_hidden_layers := n
            hidden_layer_width := w
            hidden_layer_activation := a
            answer_dim := d }))))

/-- Embedding of `QuestionAnswerEntailmentModel._tile_projection` (source lines
121–132): permute `ones_like(answers)` to `(options, batch, dim)`,
broadcast-multiply by the projected input, and permute back, so the
projected row of each batch element is replicated across the option
axis. -/
def QuestionAnswerEntailmentModel.tile_projection
    (encoded_answers : List (List (List ℝ)))
    (projected : List (List ℝ)) : List (List (List ℝ)) :=
  permute_dimensions_102
    (broadcast_mul (permute_dimensions_102 (ones_like encoded_answers))
      projected)

/-- The per-option similarity scores of
`QuestionAnswerEntailmentModel.classify` before the final softmax:
`K.sum(tiled * encoded_answers, axis=2)`. -/
def QuestionAnswerEntailmentModel.similarity_scores
    (encoded_answers : List (List (List ℝ)))
    (projected : List (List ℝ)) : List (List ℝ) :=
  sum_axis2
    (elementwise_mul3
      (QuestionAnswerEntailmentModel.tile_projection encoded_answers
        projected)
      encoded_answers)

/-- Embedding of `QuestionAnswerEntailmentModel.classify` (source lines 90–119):
hidden layers, linear projection to `answer_dim`, tiled dot product with
each answer encoding, softmax over options. -/
noncomputable def QuestionAnswerEntailmentModel.classify (act : ℝ → ℝ)
    (hidden_layers : List DenseLayer) (projection_layer : DenseLayer)
    (combined_input : List (List ℝ))
    (encoded_answers : List (List (List ℝ))) : List (List ℝ) :=
  let hidden_input :=
    hidden_layers.foldl (fun t l => l.applyBatch act t) combined_input
  let projected_input := projection_layer.applyBatch id hidden_input
  (QuestionAnswerEntailmentModel.similarity_scores encoded_answers
      projected_input).map softmax

/-- Configuration of `MultipleChoiceEntailmentModel` as stored by
`__init__`. -/
structure MultipleChoiceEntailmentModel where
  num_hidden_layers : ℕ
  hidden_layer_width : ℕ
  hidden_layer_activation : String

/-- Embedding of `MultipleChoiceEntailmentModel.__init__`: the three parameters are
positional; a missing argument is a `TypeError` at the call, modelled the
same way as a missing keyword. -/
def MultipleChoiceEntailmentModel.init (num_hidden_layers : Option ℕ)
    (hidden_layer_width : Option ℕ)
    (hidden_layer_activation : Option String) :
    Option MultipleChoiceEntailmentModel :=
  num_hidden_layers.bind (fun n =>
    hidden_layer_width.bind (fun w =>
      hidden_layer_activation.map (fun a =>
        { num_hidden_layers := n
          hidden_layer_width := w
          hidden_layer_activation := a })))

/-- Embedding of `MultipleChoiceEntailmentModel._init_layers`, score layer (source
line 159): `Dense(output_dim=1, activation='sigmoid')`. -/
def MultipleChoiceEntailmentModel.init_score_layer
    (_ : MultipleChoiceEntailmentModel) : DenseSpec :=
  ⟨1, "sigmoid"⟩

/-- Embedding of `MultipleChoiceEntailmentModel.classify` (source lines 161–181):
`TimeDistributed` hidden layers, a `TimeDistributed` sigmoid score layer
producing `(batch, options, 1)`, squeeze, softmax over options. -/
noncomputable def MultipleChoiceEntailmentModel.classify (act : ℝ → ℝ)
    (hidden_layers : List DenseLayer) (score_layer : DenseLayer)
    (combined_input : List (List (List ℝ))) : List (List ℝ) :=
  let hidden_input :=
    hidden_layers.foldl
      (fun t l => timeDistributed (l.apply act) t) combined_input
  let scores := timeDistributed (score_layer.apply sigmoid) hidden_input
  (squeeze_axis2 scores).map softmax

/-! ## Specification-side predicates -/

/-- A batch of valid probability distributions: every entry nonnegative,
every row summing to 1. -/
def IsDistributionBatch (out : List (List ℝ)) : Prop :=
  ∀ row ∈ out, (∀ p ∈ row, 0 ≤ p) ∧ row.sum = 1

/-- Every row of the batch has length `n`. -/
def RowsHaveLength (n : ℕ) (out : List (List ℝ)) : Prop :=
  ∀ row ∈ out, row.length = n

/-- Predicate: `t` is a rectangular `(b, o, dim)` tensor. -/
def RectTensor3 (b o dim : ℕ) (t : List (List (List ℝ))) : Prop :=
  t.length = b ∧ (∀ opts ∈ t, opts.length = o) ∧
    ∀ opts ∈ t, ∀ a ∈ opts, a.length = dim

/-- Predicate: `m` is a rectangular `(b, dim)` tensor. -/
def RectMatrix (b dim : ℕ) (m : List (List ℝ)) : Prop :=
  m.length = b ∧ ∀ p ∈ m, p.length = dim

/-- Modelled from the spec's words, for the refinement claim about
`_tile_projection`: the direct batched dot product between the projected
input and each answer encoding. -/
def batched_dot_scores (projected : List (List ℝ))
    (encoded_answers : List (List (List ℝ))) : List (List ℝ) :=
  List.zipWith (fun prow opts => opts.map (fun a => dotProduct prow a))
    projected encoded_answers

/-! ## Helper lemmas -/

theorem sum_map_exp_pos (v : List ℝ) (h : v ≠ []) :
    0 < (v.map Real.exp).sum := by
  refine List.sum_pos _ (fun x hx => ?_) (by simpa using h)
  obtain ⟨y, _, rfl⟩ := List.mem_map.1 hx
  exact Real.exp_pos y

theorem softmax_length (v : List ℝ) : (softmax v).length = v.length := by
  simp [softmax]

theorem softmax_nonneg (v : List ℝ) : ∀ p ∈ softmax v, 0 ≤ p := by
  intro p hp
  obtain ⟨y, hy, rfl⟩ := List.mem_map.1 hp
  have hv : v ≠ [] := by rintro rfl; simp at hy
  exact div_nonneg (Real.exp_pos y).le (sum_map_exp_pos v hv).le

theorem softmax_sum (v : List ℝ) (h : v ≠ []) : (softmax v).sum = 1 := by
  have hS := sum_map_exp_pos v h
  unfold softmax
  have : (fun y => Real.exp y / (v.map Real.exp).sum) =
      fun y => Real.exp y * ((v.map Real.exp).sum)⁻¹ :=
    funext fun y => div_eq_mul_inv _ _
  rw [this, List.sum_map_mul_right, mul_inv_cancel₀ hS.ne']

theorem softmax_isDistribution (v : List ℝ) (h : v ≠ []) :
    (∀ p ∈ softmax v, 0 ≤ p) ∧ (softmax v).sum = 1 :=
  ⟨softmax_nonneg v, softmax_sum v h⟩

theorem foldl_applyBatch (act : ℝ → ℝ) :
    ∀ (ls : List DenseLayer) (batch : List (List ℝ)),
      ls.foldl (fun t l => l.applyBatch act t) batch =
        batch.map (fun x => ls.foldl (fun a l => l.apply act a) x)
  | [], batch => by simp
  | l :: ls, batch => by
    simp only [List.foldl_cons]
    rw [foldl_applyBatch act ls (l.applyBatch act batch),
      DenseLayer.applyBatch, List.map_map]
    rfl

theorem foldl_timeDistributed (act : ℝ → ℝ) :
    ∀ (ls : List DenseLayer) (t : List (List (List ℝ))),
      ls.foldl (fun t l => timeDistributed (l.apply act) t) t =
        t.map (fun opts =>
          opts.map (fun x => ls.foldl (fun a l => l.apply act a) x))
  | [], t => by simp
  | l :: ls, t => by
    simp only [List.foldl_cons]
    rw [foldl_timeDistributed act ls (timeDistributed (l.apply act) t),
      timeDistributed, List.map_map]
    refine List.map_congr_left (fun opts _ => ?_)
    simp only [Function.comp, List.map_map]
    rfl

theorem mem_zipWith {α β γ : Type} {f : α → β → γ} :
    ∀ {l₁ : List α} {l₂ : List β} {c : γ}, c ∈ List.zipWith f l₁ l₂ →
      ∃ a b, a ∈ l₁ ∧ b ∈ l₂ ∧ c = f a b
  | [], _, _, h => by simp at h
  | _ :: _, [], _, h => by simp at h
  | a :: l₁, b :: l₂, c, h => by
    rcases List.mem_cons.1 h with h | h
    · exact ⟨a, b, by simp, by simp, h⟩
    · obtain ⟨a', b', ha, hb, rfl⟩ := mem_zipWith h
      exact ⟨a', b', by simp [ha], by simp [hb], rfl⟩

theorem zipWith_replicate_left_of_length {α β γ : Type} (f : α → β → γ)
    (a : α) :
    ∀ (l : List β) (n : ℕ), l.length = n →
      List.zipWith f (List.replicate n a) l = l.map (f a)
  | [], n, h => by simp [← h]
  | b :: l, n, h => by
    cases n with
    | zero => simp at h
    | succ m =>
      simp only [List.replicate_succ, List.zipWith_cons_cons,
        List.map_cons]
      rw [zipWith_replicate_left_of_length f a l m (by simpa using h)]

theorem zipWith_congr_of_mem {α β γ : Type} {f g : α → β → γ} :
    ∀ (l₁ : List α) (l₂ : List β),
      (∀ a ∈ l₁, ∀ b ∈ l₂, f a b = g a b) →
      List.zipWith f l₁ l₂ = List.zipWith g l₁ l₂
  | [], _, _ => by simp
  | _ :: _, [], _ => by simp
  | a :: l₁, b :: l₂, h => by
    simp only [List.zipWith_cons_cons]
    refine congrArg₂ _ (h a (by simp) b (by simp)) ?_
    exact zipWith_congr_of_mem l₁ l₂
      (fun x hx y hy => h x (by simp [hx]) y (by simp [hy]))

theorem range_map_getD {β γ : Type} (d : β) (g : β → γ) :
    ∀ l : List β,
      (List.range l.length).map (fun j => g (l.getD j d)) = l.map g
  | [] => by simp
  | x :: l => by
    rw [List.length_cons, List.range_succ_eq_map, List.map_cons,
      List.map_map]
    simp only [Function.comp_def, List.getD_cons_zero,
      List.getD_cons_succ]
    rw [range_map_getD d g l, List.map_cons]

theorem ones_like_rect (encoded_answers : List (List (List ℝ)))
    (o dim : ℕ)
    (hopts : ∀ opts ∈ encoded_answers, opts.length = o)
    (hdim : ∀ opts ∈ encoded_answers, ∀ a ∈ opts, a.length = dim) :
    ones_like encoded_answers =
      List.replicate encoded_answers.length
        (List.replicate o (List.replicate dim 1)) := by
  rw [List.eq_replicate_iff]
  refine ⟨by simp [ones_like], ?_⟩
  intro s hs
  obtain ⟨opts, hmem, rfl⟩ := List.mem_map.1 hs
  rw [List.eq_replicate_iff]
  refine ⟨by simp [hopts opts hmem], ?_⟩
  intro r hr
  obtain ⟨a, hamem, rfl⟩ := List.mem_map.1 hr
  have ha : a.length = dim := hdim opts hmem a hamem
  rw [show (fun _ : ℝ => (1 : ℝ)) = Function.const ℝ (1 : ℝ) from rfl,
    List.map_const, ha]

theorem permute_replicate (b o : ℕ) (hb : 1 ≤ b) (w : List ℝ) :
    permute_dimensions_102
        (List.replicate b (List.replicate o w)) =
      List.replicate o (List.replicate b w) := by
  unfold permute_dimensions_102
  have hhead :
      (List.replicate b (List.replicate o w)).headD [] =
        List.replicate o w := by
    cases b with
    | zero => omega
    | succ m => simp [List.replicate_succ]
  rw [hhead, List.length_replicate]
  rw [List.eq_replicate_iff]
  refine ⟨by simp, ?_⟩
  intro s hs
  obtain ⟨j, hj, rfl⟩ := List.mem_map.1 hs
  have hj' : j < o := List.mem_range.1 hj
  rw [List.eq_replicate_iff]
  refine ⟨by simp, ?_⟩
  intro r hr
  obtain ⟨slice, hsl, rfl⟩ := List.mem_map.1 hr
  rw [List.eq_of_mem_replicate hsl,
    List.getD_eq_getElem _ _ (by simpa using hj'),
    List.getElem_replicate]

theorem broadcast_mul_ones (o b dim : ℕ) (projected : List (List ℝ))
    (hb : projected.length = b)
    (hdim : ∀ p ∈ projected, p.length = dim) :
    broadcast_mul
        (List.replicate o (List.replicate b (List.replicate dim 1)))
        projected =
      List.replicate o projected := by
  unfold broadcast_mul
  rw [List.map_replicate]
  congr 1
  rw [zipWith_replicate_left_of_length _ _ projected b hb]
  rw [List.map_congr_left (fun prow hmem =>
    zipWith_replicate_left_of_length (fun a b => a * b) 1 prow dim
      (hdim prow hmem))]
  simp

theorem permute_replicate_map (o : ℕ) (ho : 1 ≤ o)
    (projected : List (List ℝ)) :
    permute_dimensions_102 (List.replicate o projected) =
      projected.map (fun prow => List.replicate o prow) := by
  unfold permute_dimensions_102
  have hhead : (List.replicate o projected).headD [] = projected := by
    cases o with
    | zero => omega
    | succ m => simp [List.replicate_succ]
  rw [hhead]
  simp only [List.map_replicate]
  exact range_map_getD [] (fun prow => List.replicate o prow) projected

theorem tile_projection_eq (encoded_answers : List (List (List ℝ)))
    (projected : List (List ℝ)) (o dim : ℕ) (ho : 1 ≤ o)
    (hlen : encoded_answers.length = projected.length)
    (hopts : ∀ opts ∈ encoded_answers, opts.length = o)
    (hdim : ∀ opts ∈ encoded_answers, ∀ a ∈ opts, a.length = dim)
    (hproj : ∀ p ∈ projected, p.length = dim) :
    QuestionAnswerEntailmentModel.tile_projection encoded_answers
        projected =
      projected.map (fun prow => List.replicate o prow) := by
  cases encoded_answers with
  | nil =>
    have : projected = [] := by
      cases projected with
      | nil => rfl
      | cons p ps => simp at hlen
    subst this
    simp [QuestionAnswerEntailmentModel.tile_projection, ones_like,
      permute_dimensions_102, broadcast_mul]
  | cons first rest =>
    unfold QuestionAnswerEntailmentModel.tile_projection
    rw [ones_like_rect _ o dim hopts hdim,
      permute_replicate _ o (by simp) _,
      broadcast_mul_ones o _ dim projected hlen.symm hproj,
      permute_replicate_map o ho projected]

theorem similarity_scores_eq_dot (encoded_answers : List (List (List ℝ)))
    (projected : List (List ℝ)) (o dim : ℕ) (ho : 1 ≤ o)
    (hlen : encoded_answers.length = projected.length)
    (hopts : ∀ opts ∈ encoded_answers, opts.length = o)
    (hdim : ∀ opts ∈ encoded_answers, ∀ a ∈ opts, a.length = dim)
    (hproj : ∀ p ∈ projected, p.length = dim) :
    QuestionAnswerEntailmentModel.similarity_scores encoded_answers
        projected =
      batched_dot_scores projected encoded_answers := by
  unfold QuestionAnswerEntailmentModel.similarity_scores
    elementwise_mul3 sum_axis2 batched_dot_scores
  rw [tile_projection_eq encoded_answers projected o dim ho hlen hopts
    hdim hproj]
  rw [List.zipWith_map_left]
  rw [List.map_zipWith]
  refine zipWith_congr_of_mem projected encoded_answers
    (fun prow _ opts hopt => ?_)
  rw [zipWith_replicate_left_of_length _ prow opts o (hopts opts hopt),
    List.map_map]
  rfl

theorem tf_classify_eq (act : ℝ → ℝ) (hidden_layers : List DenseLayer)
    (score_layer : DenseLayer) (combined_input : List (List ℝ)) :
    TrueFalseEntailmentModel.classify act hidden_layers score_layer
        combined_input =
      combined_input.map (fun x =>
        softmax (score_layer.affine
          (hidden_layers.foldl (fun a l => l.apply act a) x))) := by
  unfold TrueFalseEntailmentModel.classify DenseLayer.applySoftmaxBatch
  rw [foldl_applyBatch, List.map_map]
  rfl

theorem mc_classify_eq (act : ℝ → ℝ) (hidden_layers : List DenseLayer)
    (score_layer : DenseLayer)
    (combined_input : List (List (List ℝ))) :
    MultipleChoiceEntailmentModel.classify act hidden_layers score_layer
        combined_input =
      combined_input.map (fun opts =>
        softmax (opts.map (fun x =>
          (score_layer.apply sigmoid
            (hidden_layers.foldl (fun a l => l.apply act a) x)).headD
            0))) := by
  unfold MultipleChoiceEntailmentModel.classify
  rw [foldl_timeDistributed]
  unfold timeDistributed squeeze_axis2
  simp only [List.map_map]
  refine List.map_congr_left (fun opts _ => ?_)
  simp only [Function.comp_def, List.map_map]

theorem qa_classify_eq (act : ℝ → ℝ) (hidden_layers : List DenseLayer)
    (projection_layer : DenseLayer) (combined_input : List (List ℝ))
    (encoded_answers : List (List (List ℝ))) :
    QuestionAnswerEntailmentModel.classify act hidden_layers
        projection_layer combined_input encoded_answers =
      (QuestionAnswerEntailmentModel.similarity_scores encoded_answers
        (combined_input.map (fun x =>
          projection_layer.apply id
            (hidden_layers.foldl (fun a l => l.apply act a) x)))).map
        softmax := by
  unfold QuestionAnswerEntailmentModel.classify
  rw [foldl_applyBatch]
  simp only [DenseLayer.applyBatch, List.map_map]
  rfl

theorem affine_length (d : DenseLayer) (x : List ℝ) :
    (d.affine x).length = min d.weights.length d.bias.length := by
  simp [DenseLayer.affine]

theorem apply_length (act : ℝ → ℝ) (d : DenseLayer) (x : List ℝ) :
    (d.apply act x).length = min d.weights.length d.bias.length := by
  simp [DenseLayer.apply, affine_length]

/-! ## The claims -/

/-- C2: for every input row of width at least `3 * encoding_dim`,
`HeuristicMatchingCombiner.call` returns the concatenation of the
sentence-encoding slice, the current-memory slice, their elementwise
product and their elementwise difference, and the declared output
dimension is exactly `4 * encoding_dim`. -/
theorem claim_C2 {α : Type} [CommRing α] (D : ℕ) (x : List α)
    (h : 3 * D ≤ x.length) (s : Option ℕ × ℕ) :
    HeuristicMatchingCombiner.call ⟨D⟩ x =
        x.take D ++ (x.drop D).take D ++
          List.zipWith (fun a b => a * b) (x.take D)
            ((x.drop D).take D) ++
          List.zipWith (fun a b => a - b) (x.take D)
            ((x.drop D).take D) ∧
      (HeuristicMatchingCombiner.call ⟨D⟩ x).length = 4 * D ∧
      (HeuristicMatchingCombiner.get_output_shape_for ⟨D⟩ s).2 =
        4 * D := by
  refine ⟨rfl, ?_, by
    simp [HeuristicMatchingCombiner.get_output_shape_for, Nat.mul_comm]⟩
  simp only [HeuristicMatchingCombiner.call, split_combiner_inputs,
    List.length_append, List.length_zipWith, List.length_take,
    List.length_drop]
  omega

/-- Witness for C2 at `D = 1`, `x = [2, 3, 5]`. -/
theorem claim_C2_witness :
    3 * 1 ≤ ([2, 3, 5] : List ℤ).length ∧
      (HeuristicMatchingCombiner.call ⟨1⟩ ([2, 3, 5] : List ℤ) =
          ([2, 3, 5] : List ℤ).take 1 ++
            (([2, 3, 5] : List ℤ).drop 1).take 1 ++
            List.zipWith (fun a b => a * b)
              (([2, 3, 5] : List ℤ).take 1)
              ((([2, 3, 5] : List ℤ).drop 1).take 1) ++
            List.zipWith (fun a b => a - b)
              (([2, 3, 5] : List ℤ).take 1)
              ((([2, 3, 5] : List ℤ).drop 1).take 1) ∧
        (HeuristicMatchingCombiner.call ⟨1⟩
          ([2, 3, 5] : List ℤ)).length = 4 * 1 ∧
        (HeuristicMatchingCombiner.get_output_shape_for ⟨1⟩
          (none, 3)).2 = 4 * 1) :=
  ⟨by decide, claim_C2 1 [2, 3, 5] (by decide) (none, 3)⟩

/-- C3: on an input row of width exactly `3 * encoding_dim`,
`MemoryOnlyCombiner.call` returns exactly the current-memory slice, of
length `encoding_dim`, and the output depends only on that slice. -/
theorem claim_C3 :
    (∀ (α : Type) (D : ℕ) (x : List α), x.length = 3 * D →
        MemoryOnlyCombiner.call ⟨D⟩ x = (x.drop D).take D ∧
          (MemoryOnlyCombiner.call ⟨D⟩ x).length = D) ∧
      (∀ (α : Type) (D : ℕ) (x y : List α), x.length = 3 * D →
        y.length = 3 * D → (x.drop D).take D = (y.drop D).take D →
        MemoryOnlyCombiner.call ⟨D⟩ x = MemoryOnlyCombiner.call ⟨D⟩ y)
    := by
  constructor
  · intro α D x h
    refine ⟨rfl, ?_⟩
    simp only [MemoryOnlyCombiner.call, split_combiner_inputs,
      List.length_take, List.length_drop]
    omega
  · intro α D x y hx hy hmem
    simpa only [MemoryOnlyCombiner.call, split_combiner_inputs]
      using hmem

/-- Witness for C3 at `D = 1`, `x = [9, 5, 7]`, `y = [0, 5, 100]`. -/
theorem claim_C3_witness :
    (([9, 5, 7] : List ℤ).length = 3 * 1 ∧
      MemoryOnlyCombiner.call ⟨1⟩ ([9, 5, 7] : List ℤ) =
        (([9, 5, 7] : List ℤ).drop 1).take 1 ∧
      (MemoryOnlyCombiner.call ⟨1⟩ ([9, 5, 7] : List ℤ)).length = 1) ∧
    (([0, 5, 100] : List ℤ).length = 3 * 1 ∧
      (([9, 5, 7] : List ℤ).drop 1).take 1 =
        (([0, 5, 100] : List ℤ).drop 1).take 1 ∧
      MemoryOnlyCombiner.call ⟨1⟩ ([9, 5, 7] : List ℤ) =
        MemoryOnlyCombiner.call ⟨1⟩ ([0, 5, 100] : List ℤ)) :=
  ⟨⟨by decide, (claim_C3.1 ℤ 1 [9, 5, 7] (by decide)).1,
    (claim_C3.1 ℤ 1 [9, 5, 7] (by decide)).2⟩,
   ⟨by decide, by decide,
    claim_C3.2 ℤ 1 [9, 5, 7] [0, 5, 100] (by decide) (by decide)
      (by decide)⟩⟩

/-- C6: for `encoding_dim = 3` and the concatenated input row
`[1,0,0, 0,1,0, 0,0,1]`, `HeuristicMatchingCombiner.call` returns
exactly the 12-element vector `[1,0,0, 0,1,0, 0,0,0, 1,-1,0]`. -/
theorem claim_C6 :
    HeuristicMatchingCombiner.call ⟨3⟩
        ([1, 0, 0, 0, 1, 0, 0, 0, 1] : List ℤ) =
      [1, 0, 0, 0, 1, 0, 0, 0, 0, 1, -1, 0] := by decide

/-- C9: `split_combiner_inputs` never checks that the width is
`3 * encoding_dim`: the attended-knowledge slice absorbs every column
past `2 * encoding_dim`, for widths below `2 * encoding_dim` the
current-memory slice has width `max (W - D) 0`, and
`MemoryOnlyCombiner`'s actual output width can differ from the width it
declares in `get_output_shape_for`. -/
theorem claim_C9 :
    (∀ (α : Type) (D : ℕ) (x : List α),
        split_combiner_inputs x D =
          (x.take D, (x.drop D).take D, x.drop (2 * D))) ∧
      (∀ (α : Type) (D : ℕ) (x : List α),
        (split_combiner_inputs x D).2.2.length = x.length - 2 * D) ∧
      (∀ (α : Type) (D : ℕ) (x : List α), x.length < 2 * D →
        (split_combiner_inputs x D).2.1.length = x.length - D) ∧
      ∃ (D : ℕ) (x : List ℤ) (s : Option ℕ × ℕ),
        (MemoryOnlyCombiner.call ⟨D⟩ x).length ≠
          (MemoryOnlyCombiner.get_output_shape_for ⟨D⟩ s).2 := by
  refine ⟨fun α D x => rfl,
    fun α D x => by simp [split_combiner_inputs],
    fun α D x h => ?_, ⟨1, [], (none, 0), by decide⟩⟩
  simp only [split_combiner_inputs, List.length_take, List.length_drop]
  omega

/-- Witness for C9 at `D = 2`, `x = [4, 5, 6]` (width `3 < 2 * D`). -/
theorem claim_C9_witness :
    ([4, 5, 6] : List ℤ).length < 2 * 2 ∧
      (split_combiner_inputs ([4, 5, 6] : List ℤ) 2).2.1.length =
        ([4, 5, 6] : List ℤ).length - 2 :=
  ⟨by decide, claim_C9.2.2.1 ℤ 2 [4, 5, 6] (by decide)⟩

/-- C10: two inputs agreeing on their first `2 * encoding_dim` columns
give equal `HeuristicMatchingCombiner.call` outputs: the
attended-knowledge slice has no influence on this combiner. -/
theorem claim_C10 {α : Type} [CommRing α] (D : ℕ) (x y : List α)
    (h : x.take (2 * D) = y.take (2 * D)) :
    HeuristicMatchingCombiner.call ⟨D⟩ x =
      HeuristicMatchingCombiner.call ⟨D⟩ y := by
  have hsent : x.take D = y.take D := by
    have h' := congrArg (List.take D) h
    simpa [List.take_take, Nat.min_eq_left (show D ≤ 2 * D by omega)]
      using h'
  have hmem : (x.drop D).take D = (y.drop D).take D := by
    have h' := congrArg (List.drop D) h
    simpa [List.drop_take, show 2 * D - D = D by omega] using h'
  simp only [HeuristicMatchingCombiner.call, split_combiner_inputs]
  rw [hsent, hmem]

/-- Witness for C10 at `D = 1`, `x = [1, 2, 3]`, `y = [1, 2, 99]`. -/
theorem claim_C10_witness :
    ([1, 2, 3] : List ℤ).take (2 * 1) =
        ([1, 2, 99] : List ℤ).take (2 * 1) ∧
      HeuristicMatchingCombiner.call ⟨1⟩ ([1, 2, 3] : List ℤ) =
        HeuristicMatchingCombiner.call ⟨1⟩ ([1, 2, 99] : List ℤ) :=
  ⟨by decide, claim_C10 1 [1, 2, 3] [1, 2, 99] (by decide)⟩

/-- C8: every model constructor fails exactly when one of its required
configuration parameters is absent, and succeeds when all are present:
`num_hidden_layers`, `hidden_layer_width` and `hidden_layer_activation`
for all three models, plus `answer_dim` for the question-answer model. -/
theorem claim_C8 (kwargs : Kwargs) :
    ((TrueFalseEntailmentModel.init kwargs).isSome ↔
        kwargs.num_hidden_layers.isSome ∧
          kwargs.hidden_layer_width.isSome ∧
          kwargs.hidden_layer_activation.isSome) ∧
      ((QuestionAnswerEntailmentModel.init kwargs).isSome ↔
        kwargs.num_hidden_layers.isSome ∧
          kwargs.hidden_layer_width.isSome ∧
          kwargs.hidden_layer_activation.isSome ∧
          kwargs.answer_dim.isSome) ∧
      ((MultipleChoiceEntailmentModel.init kwargs.num_hidden_layers
          kwargs.hidden_layer_width
          kwargs.hidden_layer_activation).isSome ↔
        kwargs.num_hidden_layers.isSome ∧
          kwargs.hidden_layer_width.isSome ∧
          kwargs.hidden_layer_activation.isSome) := by
  obtain ⟨n, w, a, d⟩ := kwargs
  cases n <;> cases w <;> cases a <;> cases d <;>
    simp [TrueFalseEntailmentModel.init,
      QuestionAnswerEntailmentModel.init,
      MultipleChoiceEntailmentModel.init]

/-- C7: `TrueFalseEntailmentModel.classify` applies the configured
hidden layers in sequence followed by the final softmax-activated score
layer, whose declared output dimension is 2, so every returned row has
exactly 2 classes. -/
theorem claim_C7 (act : ℝ → ℝ) (m : TrueFalseEntailmentModel)
    (hidden_layers : List DenseLayer) (score_layer : DenseLayer)
    (combined_input : List (List ℝ))
    (hw : score_layer.weights.length =
      (m.init_score_layer).output_dim)
    (hb : score_layer.bias.length = (m.init_score_layer).output_dim) :
    (m.init_score_layer).output_dim = 2 ∧
      TrueFalseEntailmentModel.classify act hidden_layers score_layer
          combined_input =
        combined_input.map (fun x =>
          softmax (score_layer.affine
            (hidden_layers.foldl (fun a l => l.apply act a) x))) ∧
      RowsHaveLength 2
        (TrueFalseEntailmentModel.classify act hidden_layers score_layer
          combined_input) := by
  refine ⟨rfl,
    tf_classify_eq act hidden_layers score_layer combined_input, ?_⟩
  intro row hrow
  rw [tf_classify_eq] at hrow
  obtain ⟨x, _, rfl⟩ := List.mem_map.1 hrow
  rw [softmax_length, affine_length, hw, hb]
  rfl

/-- Witness for C7: no hidden layers, a score layer with two weight
rows, a one-row batch. -/
theorem claim_C7_witness :
    (⟨[[1], [0]], [0, 0]⟩ : DenseLayer).weights.length =
        ((⟨0, 1, "tanh"⟩ :
          TrueFalseEntailmentModel).init_score_layer).output_dim ∧
      (⟨[[1], [0]], [0, 0]⟩ : DenseLayer).bias.length =
        ((⟨0, 1, "tanh"⟩ :
          TrueFalseEntailmentModel).init_score_layer).output_dim ∧
      (((⟨0, 1, "tanh"⟩ :
          TrueFalseEntailmentModel).init_score_layer).output_dim = 2 ∧
        TrueFalseEntailmentModel.classify id []
            (⟨[[1], [0]], [0, 0]⟩ : DenseLayer) [[1]] =
          ([[1]] : List (List ℝ)).map (fun x =>
            softmax ((⟨[[1], [0]], [0, 0]⟩ : DenseLayer).affine
              (List.foldl (fun a l => DenseLayer.apply id l a) x
                ([] : List DenseLayer)))) ∧
        RowsHaveLength 2
          (TrueFalseEntailmentModel.classify id []
            (⟨[[1], [0]], [0, 0]⟩ : DenseLayer) [[1]])) :=
  ⟨rfl, rfl,
    claim_C7 id ⟨0, 1, "tanh"⟩ [] ⟨[[1], [0]], [0, 0]⟩ [[1]] rfl rfl⟩

/-- C5: `MultipleChoiceEntailmentModel.classify` maps a
`(batch, options, features)` input to a `(batch, options)` output by
applying one shared hidden-layer stack and the sigmoid-activated
one-unit score layer (declared output dimension 1) independently to
each option, then softmaxing across the option axis. -/
theorem claim_C5 (act : ℝ → ℝ) (hidden_layers : List DenseLayer)
    (score_layer : DenseLayer)
    (combined_input : List (List (List ℝ))) :
    MultipleChoiceEntailmentModel.classify act hidden_layers score_layer
        combined_input =
      combined_input.map (fun opts =>
        softmax (opts.map (fun x =>
          (score_layer.apply sigmoid
            (hidden_layers.foldl (fun a l => l.apply act a) x)).headD
            0))) ∧
    (MultipleChoiceEntailmentModel.classify act hidden_layers
      score_layer combined_input).length = combined_input.length ∧
    List.Forall₂ (fun row opts => row.length = opts.length)
      (MultipleChoiceEntailmentModel.classify act hidden_layers
        score_layer combined_input) combined_input ∧
    ∀ m : MultipleChoiceEntailmentModel,
      m.init_score_layer = ⟨1, "sigmoid"⟩ := by
  refine ⟨mc_classify_eq act hidden_layers score_layer combined_input,
    ?_, ?_, fun m => rfl⟩
  · rw [mc_classify_eq]
    simp
  · rw [mc_classify_eq]
    rw [List.forall₂_map_left_iff]
    rw [List.forall₂_same]
    intro opts _
    rw [softmax_length, List.length_map]

/-- C4: the per-option scores before the final softmax, computed by
tiling the projected input across the option axis via
`_tile_projection` and then multiplying elementwise and summing over
the feature axis, equal the direct batched dot product between the
projected vector and each answer encoding. -/
theorem claim_C4 (encoded_answers : List (List (List ℝ)))
    (projected : List (List ℝ)) (b o dim : ℕ) (ho : 1 ≤ o)
    (hA : RectTensor3 b o dim encoded_answers)
    (hP : RectMatrix b dim projected) :
    QuestionAnswerEntailmentModel.similarity_scores encoded_answers
        projected =
      batched_dot_scores projected encoded_answers := by
  obtain ⟨hAb, hAo, hAd⟩ := hA
  obtain ⟨hPb, hPd⟩ := hP
  exact similarity_scores_eq_dot encoded_answers projected o dim ho
    (by rw [hAb, hPb]) hAo hAd hPd

/-- Witness for C4 at a `(1, 1, 1)` answer tensor and a `(1, 1)`
projected input. -/
theorem claim_C4_witness :
    1 ≤ 1 ∧ RectTensor3 1 1 1 ([[[2]]] : List (List (List ℝ))) ∧
      RectMatrix 1 1 ([[3]] : List (List ℝ)) ∧
      QuestionAnswerEntailmentModel.similarity_scores
          ([[[2]]] : List (List (List ℝ))) ([[3]] : List (List ℝ)) =
        batched_dot_scores ([[3]] : List (List ℝ))
          ([[[2]]] : List (List (List ℝ))) :=
  ⟨le_refl 1, by simp [RectTensor3], by simp [RectMatrix],
    claim_C4 [[[2]]] [[3]] 1 1 1 (le_refl 1) (by simp [RectTensor3])
      (by simp [RectMatrix])⟩

/-- C1: on valid inputs each of the three classifiers returns a valid
probability distribution along the class/option axis: every entry is
nonnegative and every row sums to 1. -/
theorem claim_C1 :
    (∀ (act : ℝ → ℝ) (hidden_layers : List DenseLayer)
        (score_layer : DenseLayer) (combined_input : List (List ℝ)),
        score_layer.weights.length = 2 →
        score_layer.bias.length = 2 →
        IsDistributionBatch
          (TrueFalseEntailmentModel.classify act hidden_layers
            score_layer combined_input)) ∧
      (∀ (act : ℝ → ℝ) (hidden_layers : List DenseLayer)
        (score_layer : DenseLayer)
        (combined_input : List (List (List ℝ))) (o dim : ℕ),
        1 ≤ o →
        RectTensor3 combined_input.length o dim combined_input →
        IsDistributionBatch
          (MultipleChoiceEntailmentModel.classify act hidden_layers
            score_layer combined_input)) ∧
      (∀ (act : ℝ → ℝ) (hidden_layers : List DenseLayer)
        (projection_layer : DenseLayer)
        (combined_input : List (List ℝ))
        (encoded_answers : List (List (List ℝ))) (o dim : ℕ),
        1 ≤ o →
        RectTensor3 combined_input.length o dim encoded_answers →
        projection_layer.weights.length = dim →
        projection_layer.bias.length = dim →
        IsDistributionBatch
          (QuestionAnswerEntailmentModel.classify act hidden_layers
            projection_layer combined_input encoded_answers)) := by
  refine ⟨?_, ?_, ?_⟩
  · intro act hidden_layers score_layer combined_input hw hb
    rw [tf_classify_eq]
    intro row hrow
    obtain ⟨x, _, rfl⟩ := List.mem_map.1 hrow
    refine softmax_isDistribution _ ?_
    have hl : (score_layer.affine
        (hidden_layers.foldl (fun a l => l.apply act a) x)).length =
        2 := by
      rw [affine_length, hw, hb]
      simp
    intro hnil
    rw [hnil] at hl
    simp at hl
  · intro act hidden_layers score_layer combined_input o dim ho hrect
    rw [mc_classify_eq]
    intro row hrow
    obtain ⟨opts, hopts, rfl⟩ := List.mem_map.1 hrow
    refine softmax_isDistribution _ ?_
    have hl : (opts.map (fun x =>
        (score_layer.apply sigmoid
          (hidden_layers.foldl (fun a l => l.apply act a) x)).headD
          0)).length = o := by
      rw [List.length_map, hrect.2.1 opts hopts]
    intro hnil
    rw [hnil] at hl
    simp at hl
    omega
  · intro act hidden_layers projection_layer combined_input
      encoded_answers o dim ho hA hw hb
    rw [qa_classify_eq]
    obtain ⟨hAb, hAo, hAd⟩ := hA
    have hPd : ∀ p ∈ combined_input.map (fun x =>
        projection_layer.apply id
          (hidden_layers.foldl (fun a l => l.apply act a) x)),
        p.length = dim := by
      intro p hp
      obtain ⟨x, _, rfl⟩ := List.mem_map.1 hp
      rw [apply_length, hw, hb]
      simp
    rw [similarity_scores_eq_dot encoded_answers _ o dim ho
      (by rw [hAb, List.length_map]) hAo hAd hPd]
    intro row hrow
    obtain ⟨srow, hsrow, rfl⟩ := List.mem_map.1 hrow
    obtain ⟨prow, opts, _, hopt, rfl⟩ := mem_zipWith hsrow
    refine softmax_isDistribution _ ?_
    have hl : (opts.map (fun a => dotProduct prow a)).length = o := by
      rw [List.length_map, hAo opts hopt]
    intro hnil
    rw [hnil] at hl
    simp at hl
    omega

/-- Witness for C1: each classifier at a concrete one-row input with
layer shapes as `_init_layers` declares them. -/
theorem claim_C1_witness :
    ((⟨[[1], [0]], [0, 0]⟩ : DenseLayer).weights.length = 2 ∧
      (⟨[[1], [0]], [0, 0]⟩ : DenseLayer).bias.length = 2 ∧
      IsDistributionBatch
        (TrueFalseEntailmentModel.classify id []
          (⟨[[1], [0]], [0, 0]⟩ : DenseLayer) [[1]])) ∧
    (1 ≤ 1 ∧
      RectTensor3 ([[[1]]] : List (List (List ℝ))).length 1 1 [[[1]]] ∧
      IsDistributionBatch
        (MultipleChoiceEntailmentModel.classify id []
          (⟨[[1]], [0]⟩ : DenseLayer) [[[1]]])) ∧
    (1 ≤ 1 ∧
      RectTensor3 ([[1]] : List (List ℝ)).length 1 1 [[[2]]] ∧
      (⟨[[1]], [0]⟩ : DenseLayer).weights.length = 1 ∧
      (⟨[[1]], [0]⟩ : DenseLayer).bias.length = 1 ∧
      IsDistributionBatch
        (QuestionAnswerEntailmentModel.classify id []
          (⟨[[1]], [0]⟩ : DenseLayer) [[1]] [[[2]]])) :=
  ⟨⟨rfl, rfl,
    claim_C1.1 id [] ⟨[[1], [0]], [0, 0]⟩ [[1]] rfl rfl⟩,
   ⟨le_refl 1, by simp [RectTensor3],
    claim_C1.2.1 id [] ⟨[[1]], [0]⟩ [[[1]]] 1 1 (le_refl 1)
      (by simp [RectTensor3])⟩,
   ⟨le_refl 1, by simp [RectTensor3], rfl, rfl,
    claim_C1.2.2 id [] ⟨[[1]], [0]⟩ [[1]] [[[2]]] 1 1 (le_refl 1)
      (by simp [RectTensor3]) rfl rfl⟩⟩
